import Mathlib

/-!
Verification of the core scheduler of mlua-luau-scheduler.

This file shallowly embeds the scheduler data model and operations from
src/lib (queue.rs, result_map.rs, runtime.rs, functions.rs, handle.rs,
error_callback.rs, util.rs, traits.rs) and proves the frozen claims about
them.  External VM behaviour (stepping a coroutine, its status after a
step) is passed in as oracle arguments; the observable effects of the
scheduler (queue contents, result map contents, error-callback
invocations, VM resume invocations) are carried explicitly in the state.
-/

namespace Scheduler

/-- Status of a Lua coroutine as exposed by the VM (mlua LuaThreadStatus).
Only the distinction between resumable and the other states matters to the
scheduler. -/
inductive LuaThreadStatus
  | resumable
  | running
  | finished
  | errored
deriving DecidableEq, Repr

/-- Lua values, restricted to the constructors the scheduler inspects.
The pending sentinel of the VM is a distinguished light-userdata value. -/
inductive LuaValue
  | nil
  | boolean (b : Bool)
  | num (n : Int)
  | str (s : String)
  | lightUserdata (tag : Nat)
  | thread (id : Nat)
deriving DecidableEq, Repr

/-- Modelled from the spec: the VM-provided distinguished pending sentinel,
a light value returned by host-async calls when they suspend.  The source
helper is_poll_pending is imported by functions.rs from util.rs but its
definition is not under src. -/
def poll_pending : LuaValue := LuaValue.lightUserdata 0

/-- Modelled from the spec: equality comparison of a value with the pending
sentinel (spec 6.2: the sentinel is equality-comparable). -/
def is_poll_pending (v : LuaValue) : Bool := v == poll_pending

/-- Modelled from the spec: the final outcome of a coroutine, a sequence of
values or an error (spec 3, ResultMap stores values or error; the source
type ThreadResult is referenced from result_map.rs but its definition is
not under src). -/
inductive ThreadResult
  | ok (vals : List LuaValue)
  | err (e : String)
deriving DecidableEq, Repr

/-- Outcome of one VM resume step of a coroutine, as returned by the VM
resume primitive: multi-values on success, an error otherwise. -/
inductive StepOutcome
  | ok (vals : List LuaValue)
  | err (e : String)
deriving DecidableEq, Repr

/-- Conversion of a step outcome into a stored ThreadResult, mirroring
ThreadResult::new in util.rs (referenced; stores values or error). -/
def ThreadResult.new : StepOutcome → ThreadResult
  | .ok v => .ok v
  | .err e => .err e

/-- Whether a step outcome has the pending sentinel as its first returned
value, mirroring v.get(0).map(is_poll_pending).unwrap_or_default() on the
success path of functions.rs (an errored step has no returned values). -/
def stepIsPending : StepOutcome → Bool
  | .ok v => (v.head?.map is_poll_pending).getD false
  | .err _ => false

/-- Association-list update with map semantics (FxHashMap insert in
result_map.rs overwrites any existing binding). -/
def mapSet {α : Type} (m : List (Nat × α)) (k : Nat) (v : α) : List (Nat × α) :=
  (k, v) :: m.filter (fun p => p.1 != k)

/-- Association-list removal with map semantics (FxHashMap remove). -/
def mapRemove {α : Type} (m : List (Nat × α)) (k : Nat) : List (Nat × α) :=
  m.filter (fun p => p.1 != k)

/-- Association-list lookup with map semantics (FxHashMap get). -/
def mapGet {α : Type} (m : List (Nat × α)) (k : Nat) : Option α :=
  match m with
  | [] => none
  | (k2, v) :: rest => if k2 = k then some v else mapGet rest k

/-- The thread result map of result_map.rs: a tracked set of ThreadIds and
a map from ThreadId to final ThreadResult.  ThreadId is modelled as Nat
(thread_id.rs is declared in lib.rs but not under src; spec 3 only
requires a stable identity usable as a map key). -/
structure ThreadResultMap where
  tracked : List Nat
  inner : List (Nat × ThreadResult)
deriving DecidableEq, Repr

/-- ThreadResultMap::track: insert the id into the tracked set. -/
def ThreadResultMap.track (m : ThreadResultMap) (id : Nat) : ThreadResultMap :=
  if id ∈ m.tracked then m else { m with tracked := id :: m.tracked }

/-- ThreadResultMap::is_tracked: membership in the tracked set. -/
def ThreadResultMap.is_tracked (m : ThreadResultMap) (id : Nat) : Bool :=
  decide (id ∈ m.tracked)

/-- ThreadResultMap::insert: store a result for the id (overwriting). -/
def ThreadResultMap.insert (m : ThreadResultMap) (id : Nat) (r : ThreadResult) :
    ThreadResultMap :=
  { m with inner := mapSet m.inner id r }

/-- ThreadResultMap::remove: remove and return the stored result for the
id; when a result was present, also clear the tracked status.  When no
result is stored the early return (question-mark operator in the source)
leaves the map untouched. -/
def ThreadResultMap.remove (m : ThreadResultMap) (id : Nat) :
    Option ThreadResult × ThreadResultMap :=
  match mapGet m.inner id with
  | none => (none, m)
  | some r => (some r, { tracked := m.tracked.erase id, inner := mapRemove m.inner id })

/-- Modelled from the spec: whether ThreadResultMap::listen would resolve
in the current state.  The listen method is called by Runtime::wait_for_thread
in runtime.rs but its definition is not under src; spec 4.4 says it awaits
the per-id event of the ResultMap and returns immediately if already
complete, and the per-id event is notified when a final result is inserted
for the id, so it is resolved exactly in the states where a result for the
id is stored. -/
def ThreadResultMap.listen_resolved (m : ThreadResultMap) (id : Nat) : Bool :=
  (mapGet m.inner id).isSome

/-- The observable scheduler state: the two thread queues (RegistrySlot
entries modelled as the pinned thread id and argument values), the result
map, the exit slot (exit.rs is declared in lib.rs but not under src; per
spec 3 it is an optional exit code plus a wakeup event, set writes the
code and notifies, get reads it), the error-callback slot presence flag of
error_callback.rs, and two observation logs: the errors passed to
ThreadErrorCallback::call and the VM resume-primitive invocations
performed (thread id and arguments, in order). -/
structure SchedState where
  queueSpawn : List (Nat × List LuaValue)
  queueDefer : List (Nat × List LuaValue)
  resultMap : ThreadResultMap
  exit : Option Nat
  callbackInstalled : Bool
  callbackLog : List String
  resumeLog : List (Nat × List LuaValue)
deriving DecidableEq, Repr

/-- A fresh scheduler state as built by Runtime::new: empty queues, empty
result map, no exit code, and the default error callback installed. -/
def SchedState.initial : SchedState :=
  { queueSpawn := []
    queueDefer := []
    resultMap := { tracked := [], inner := [] }
    exit := none
    callbackInstalled := true
    callbackLog := []
    resumeLog := [] }

/-- ThreadQueue::push_item of queue.rs: append the thread and its
arguments at the tail of the FIFO (ConcurrentQueue push) and signal the
non-empty event (the event is left abstract). -/
def ThreadQueue.push_item (q : List (Nat × List LuaValue)) (tid : Nat)
    (args : List LuaValue) : List (Nat × List LuaValue) :=
  q ++ [(tid, args)]

/-- ThreadQueue::drain_items of queue.rs: try_iter consumes the queued
items from the head in FIFO order, leaving the queue empty. -/
def ThreadQueue.drain_items (q : List (Nat × List LuaValue)) :
    List (Nat × List LuaValue) × List (Nat × List LuaValue) :=
  (q, [])

/-- ThreadErrorCallback::call of error_callback.rs: invoke the installed
callback with the error, when one is installed (the exists flag); the
invocation is observed by appending to the callback log. -/
def ThreadErrorCallback.call (s : SchedState) (e : String) : SchedState :=
  if s.callbackInstalled then { s with callbackLog := s.callbackLog ++ [e] } else s

/-- Observation of one invocation of the VM resume primitive
(thread.resume in functions.rs, or the single step awaited by
run_until_yield in util.rs) on the given thread with the given
arguments. -/
def vmResume (s : SchedState) (tid : Nat) (args : List LuaValue) : SchedState :=
  { s with resumeLog := s.resumeLog ++ [(tid, args)] }

/-- The resume function built in Functions::new (functions.rs lines
113-143).  The outcome of the VM step and the thread status after the
step are oracle inputs.  Mirrors the source: on success with the
pending sentinel first, push onto the deferred queue and return
(true, nil); on success otherwise, store the values if the thread is no
longer resumable and tracked, and return (true, values); on error, store
the error if tracked and return (false, error message). -/
def Functions.resume (s : SchedState) (tid : Nat) (args : List LuaValue)
    (step : StepOutcome) (statusAfter : LuaThreadStatus) :
    SchedState × (Bool × List LuaValue) :=
  let s := vmResume s tid args
  match step with
  | .ok v =>
    if (v.head?.map is_poll_pending).getD false then
      ({ s with queueDefer := ThreadQueue.push_item s.queueDefer tid args },
        (true, [LuaValue.nil]))
    else
      let s :=
        if statusAfter ≠ LuaThreadStatus.resumable ∧ s.resultMap.is_tracked tid then
          { s with resultMap := s.resultMap.insert tid (ThreadResult.ok v) }
        else s
      (s, (true, v))
  | .err e =>
    let s :=
      if s.resultMap.is_tracked tid then
        { s with resultMap := s.resultMap.insert tid (ThreadResult.err e) }
      else s
    (s, (false, [LuaValue.str e]))

/-- The argument of the spawn and defer functions: a Lua thread or a Lua
function (util.rs LuaThreadOrFunction); functions are identified
abstractly. -/
inductive LuaThreadOrFunction
  | thread (id : Nat)
  | fn (fid : Nat)
deriving DecidableEq, Repr

/-- LuaThreadOrFunction::into_thread: a thread is returned as-is, a
function is wrapped into a fresh coroutine (lua.create_thread), whose
identity is the oracle-provided fresh id. -/
def LuaThreadOrFunction.into_thread (tof : LuaThreadOrFunction) (freshId : Nat) : Nat :=
  match tof with
  | .thread t => t
  | .fn _ => freshId

/-- The spawn function built in Functions::new (functions.rs lines
163-198).  The status of the thread before the step, the outcome of the
immediate resume, and the status after it are oracle inputs.  Mirrors the
source: only a resumable thread is resumed, once, with the given
arguments; if the first returned value is the pending sentinel the thread
and arguments are pushed onto the spawned queue; otherwise the result is
stored when the thread is finished and tracked; on error the error
callback is invoked and the error stored when tracked; the thread is
returned in every case. -/
def Functions.spawn (s : SchedState) (tof : LuaThreadOrFunction)
    (args : List LuaValue) (freshId : Nat) (statusBefore : LuaThreadStatus)
    (step : StepOutcome) (statusAfter : LuaThreadStatus) : SchedState × Nat :=
  let tid := tof.into_thread freshId
  if statusBefore = LuaThreadStatus.resumable then
    let s := vmResume s tid args
    match step with
    | .ok v =>
      if (v.head?.map is_poll_pending).getD false then
        ({ s with queueSpawn := ThreadQueue.push_item s.queueSpawn tid args }, tid)
      else
        let s :=
          if statusAfter ≠ LuaThreadStatus.resumable ∧ s.resultMap.is_tracked tid then
            { s with resultMap := s.resultMap.insert tid (ThreadResult.ok v) }
          else s
        (s, tid)
    | .err e =>
      let s := ThreadErrorCallback.call s e
      let s :=
        if s.resultMap.is_tracked tid then
          { s with resultMap := s.resultMap.insert tid (ThreadResult.err e) }
        else s
      (s, tid)
  else (s, tid)

/-- Runtime::push_thread_front (runtime.rs lines 190-199): push the
thread onto the spawned queue, mark its id tracked in the result map, and
return the id. -/
def Runtime.push_thread_front (s : SchedState) (tid : Nat) (args : List LuaValue) :
    SchedState × Nat :=
  let s := { s with queueSpawn := ThreadQueue.push_item s.queueSpawn tid args }
  ({ s with resultMap := s.resultMap.track tid }, tid)

/-- Runtime::push_thread_back (runtime.rs lines 218-227): push the thread
onto the deferred queue, mark its id tracked, and return the id. -/
def Runtime.push_thread_back (s : SchedState) (tid : Nat) (args : List LuaValue) :
    SchedState × Nat :=
  let s := { s with queueDefer := ThreadQueue.push_item s.queueDefer tid args }
  ({ s with resultMap := s.resultMap.track tid }, tid)

/-- LuaRuntimeExt::push_thread_front of traits.rs: look up the spawned
queue in the app data and push the item, returning the id of the pushed
thread.  Note that, unlike Runtime::push_thread_front, it does not touch
the result map. -/
def Lua.push_thread_front (s : SchedState) (tid : Nat) (args : List LuaValue) :
    SchedState × Nat :=
  ({ s with queueSpawn := ThreadQueue.push_item s.queueSpawn tid args }, tid)

/-- LuaRuntimeExt::push_thread_back of traits.rs: look up the deferred
queue in the app data and push the item, returning the id of the pushed
thread.  Does not touch the result map. -/
def Lua.push_thread_back (s : SchedState) (tid : Nat) (args : List LuaValue) :
    SchedState × Nat :=
  ({ s with queueDefer := ThreadQueue.push_item s.queueDefer tid args }, tid)

/-- LuaRuntimeExt::track_thread of traits.rs: mark the id tracked without
enqueuing. -/
def Lua.track_thread (s : SchedState) (tid : Nat) : SchedState :=
  { s with resultMap := s.resultMap.track tid }

/-- Runtime::get_thread_result (runtime.rs lines 243-246): remove and
return the stored result for the id. -/
def Runtime.get_thread_result (s : SchedState) (tid : Nat) :
    Option ThreadResult × SchedState :=
  let (r, m) := s.resultMap.remove tid
  (r, { s with resultMap := m })

/-- Runtime::wait_for_thread (runtime.rs lines 253-255): await the per-id
event of the result map; this observation tells whether that await has
resolved in the current state. -/
def Runtime.wait_for_thread_resolved (s : SchedState) (tid : Nat) : Bool :=
  s.resultMap.listen_resolved tid

/-- Runtime::set_exit_code (runtime.rs lines 171-173): write the exit
code slot (and notify the exit event, left abstract). -/
def Runtime.set_exit_code (s : SchedState) (c : Nat) : SchedState :=
  { s with exit := some c }

/-- Runtime::get_exit_code (runtime.rs lines 161-164): read the exit code
slot. -/
def Runtime.get_exit_code (s : SchedState) : Option Nat :=
  s.exit

/-- Oracle giving the current status of a coroutine, as observed through
thread.status() in the tick loop. -/
abbrev StatusOracle := Nat → LuaThreadStatus

/-- Oracle giving, for a coroutine and arguments, the outcome of the one
step awaited by run_until_yield (none when the async stream yields no
step result) together with the thread status after the step. -/
abbrev StepOracle := Nat → List LuaValue → Option StepOutcome × LuaThreadStatus

/-- The process_thread closure of Runtime::run (runtime.rs lines
317-354): skip the item if the thread is no longer resumable (it may have
been cancelled); otherwise record whether the id is tracked, run the
thread until its next yield, invoke the error callback when the step
errored, and insert the outcome into the result map when the id was
tracked and the thread is no longer resumable.  The task is spawned onto
the local executor in the source; its effect is modelled as performed at
processing time. -/
def process_thread (statusOf : StatusOracle) (stepOf : StepOracle)
    (s : SchedState) (item : Nat × List LuaValue) : SchedState :=
  let (tid, args) := item
  if statusOf tid = LuaThreadStatus.resumable then
    let id_tracked := s.resultMap.is_tracked tid
    let (res, statusAfter) := stepOf tid args
    let s := vmResume s tid args
    match res with
    | none => s
    | some r =>
      let s :=
        match r with
        | .err e => ThreadErrorCallback.call s e
        | .ok _ => s
      if id_tracked ∧ statusAfter ≠ LuaThreadStatus.resumable then
        { s with resultMap := s.resultMap.insert tid (ThreadResult.new r) }
      else s
  else s

/-- How one iteration of the main loop ended: by the exit check, by the
local executor being empty after processing, or by continuing to the next
iteration. -/
inductive TickKind
  | exited
  | completed
  | continued
deriving DecidableEq, Repr

/-- Result of one iteration of the main loop: how it ended, the resulting
state, and the queue items it processed (the process_thread invocations,
in order). -/
structure TickOut where
  kind : TickKind
  state : SchedState
  processed : List (Nat × List LuaValue)
deriving DecidableEq, Repr

/-- One iteration of the main loop of Runtime::run (runtime.rs lines
356-423), after the prioritised wait has woken: if an exit code is set,
break immediately (before draining anything); otherwise drain and process
every spawned-queue item, then every deferred-queue item, in order, and
break when the local executor is empty afterwards.  The futures queue
drain only adopts host futures and is not modelled.  Whether the local
executor is empty after processing is an oracle on the resulting
state. -/
def tick (statusOf : StatusOracle) (stepOf : StepOracle)
    (localEmpty : SchedState → Bool) (s : SchedState) : TickOut :=
  if s.exit.isSome then
    { kind := TickKind.exited, state := s, processed := [] }
  else
    let (spawnItems, qs) := ThreadQueue.drain_items s.queueSpawn
    let (deferItems, qd) := ThreadQueue.drain_items s.queueDefer
    let s := { s with queueSpawn := qs, queueDefer := qd }
    let items := spawnItems ++ deferItems
    let s := items.foldl (process_thread statusOf stepOf) s
    if localEmpty s then
      { kind := TickKind.completed, state := s, processed := items }
    else
      { kind := TickKind.continued, state := s, processed := items }

/-- Runtime::run main loop: iterate tick until it breaks (by exit or by
an empty local executor); fuel bounds the number of iterations. -/
def Runtime.run (statusOf : StatusOracle) (stepOf : StepOracle)
    (localEmpty : SchedState → Bool) : Nat → SchedState → SchedState
  | 0, s => s
  | fuel + 1, s =>
    match tick statusOf stepOf localEmpty s with
    | { kind := TickKind.exited, state := s2, processed := _ } => s2
    | { kind := TickKind.completed, state := s2, processed := _ } => s2
    | { kind := TickKind.continued, state := s2, processed := _ } =>
      Runtime.run statusOf stepOf localEmpty fuel s2

/-- The Handle of handle.rs: a one-shot slot holding the thread and its
arguments, a result cell storing the ok flag together with the stored
values or error, the final flag, and the completion event (observed as a
notification counter). -/
structure Handle where
  thread : Option (Nat × List LuaValue)
  result : Option (Bool × ThreadResult)
  status : Bool
  notifyCount : Nat
deriving DecidableEq, Repr

/-- Handle::new: the slot is filled, no result, not final. -/
def Handle.new (tid : Nat) (args : List LuaValue) : Handle :=
  { thread := some (tid, args), result := none, status := false, notifyCount := 0 }

/-- The pair stored by Handle::set: the ok flag of the result and the
registry-pinned values or error. -/
def stepStored : StepOutcome → Bool × ThreadResult
  | .ok v => (true, ThreadResult.ok v)
  | .err e => (false, ThreadResult.err e)

/-- Handle::set (handle.rs lines 72-90): replace the result cell with the
outcome, replace the final flag with is_final, and notify the event only
when is_final holds. -/
def Handle.set (h : Handle) (result : StepOutcome) (is_final : Bool) : Handle :=
  { h with
    result := some (stepStored result)
    status := is_final
    notifyCount := if is_final then h.notifyCount + 1 else h.notifyCount }

/-- Whether Handle::listen (handle.rs lines 118-122) would await the
event: it does so exactly when the final flag is not yet set, and returns
immediately otherwise. -/
def Handle.listen_blocks (h : Handle) : Bool :=
  !h.status

/-- The resume method installed on the handle userdata (handle.rs
add_methods): take the thread and arguments out of the one-shot slot
(none models the panic when the slot was already taken), run one step
(oracle outcome and after-status), and store the outcome with the final
flag set exactly when the thread is no longer resumable.  Returns the
updated handle and the step outcome forwarded back to the runtime. -/
def Handle.resume_method (h : Handle) (step : StepOutcome)
    (statusAfter : LuaThreadStatus) : Option (Handle × StepOutcome) :=
  match h.thread with
  | none => none
  | some _ =>
    let h := { h with thread := none }
    let is_final := decide (statusAfter ≠ LuaThreadStatus.resumable)
    some (h.set step is_final, step)

/-- Events on the result map and on the coroutines it tracks, used to
state trace invariants of get_thread_result.  track covers
Runtime::push_thread_front and push_thread_back and
LuaRuntimeExt::track_thread; setStatus is a VM-side status change of a
coroutine; insertRes is a guarded insertion (all call sites insert only
for tracked ids, and only for threads observed outside the resumable
status); removeRes is Runtime::get_thread_result. -/
inductive MapEvent
  | track (id : Nat)
  | setStatus (id : Nat) (st : LuaThreadStatus)
  | insertRes (id : Nat) (r : ThreadResult)
  | removeRes (id : Nat)
deriving DecidableEq, Repr

/-- State for the result-map trace system: the result map, the current
coroutine statuses (fresh coroutines are resumable), and the ghost set of
ids that have at some point been observed outside the resumable
status. -/
structure MState where
  rmap : ThreadResultMap
  statuses : List (Nat × LuaThreadStatus)
  everNR : List Nat
deriving DecidableEq, Repr

/-- Current status of a coroutine in the trace system. -/
def MState.statusOf (s : MState) (id : Nat) : LuaThreadStatus :=
  (mapGet s.statuses id).getD LuaThreadStatus.resumable

/-- Initial trace state: empty map, all coroutines resumable. -/
def MState.init : MState :=
  { rmap := { tracked := [], inner := [] }, statuses := [], everNR := [] }

/-- Effect of one event on the trace state. -/
def evStep (s : MState) : MapEvent → MState
  | .track id => { s with rmap := s.rmap.track id }
  | .setStatus id st =>
    { s with
      statuses := mapSet s.statuses id st
      everNR :=
        if st = LuaThreadStatus.resumable then s.everNR
        else if id ∈ s.everNR then s.everNR else id :: s.everNR }
  | .insertRes id r => { s with rmap := s.rmap.insert id r }
  | .removeRes id => { s with rmap := (s.rmap.remove id).2 }

/-- Whether an event is possible in the given state, mirroring the guards
of the insertion sites: every insertion into the result map happens for a
tracked id (result_map.rs insert asserts tracking, and every call site in
runtime.rs and functions.rs checks is_tracked first) and only when the
thread is outside the resumable status at that moment (process_thread and
the resume and spawn success paths check the status explicitly; the error
paths insert after a VM resume returned an error, which per the VM
contract leaves the thread not resumable: an errored coroutine is dead,
and resuming a non-suspended coroutine fails without making it
resumable). -/
def evValid (s : MState) : MapEvent → Bool
  | .insertRes id _ =>
    s.rmap.is_tracked id && decide (s.statusOf id ≠ LuaThreadStatus.resumable)
  | _ => true

/-- Replay a list of events from a state. -/
def replay (s : MState) : List MapEvent → MState
  | [] => s
  | e :: rest => replay (evStep s e) rest

/-- Whether a whole trace is possible from a state. -/
def traceValid (s : MState) : List MapEvent → Bool
  | [] => true
  | e :: rest => evValid s e && traceValid (evStep s e) rest

/-- Number of removeRes events for the id in a trace whose pre-state has
a stored result, i.e. the number of get_thread_result calls that return
Some when the trace is replayed. -/
def removeSomeCount (s : MState) : List MapEvent → Nat → Nat
  | [], _ => 0
  | e :: rest, id =>
    (if e = MapEvent.removeRes id ∧ (mapGet s.rmap.inner id).isSome then 1 else 0)
      + removeSomeCount (evStep s e) rest id

/-- A trace realisable by the source API: a thread is submitted with
Runtime::push_thread_front (track), runs to completion (setStatus
finished, then the guarded insertion by process_thread), its result is
retrieved (removeRes, returning Some and clearing tracking), then the
host tracks the same id again with LuaRuntimeExt::track_thread, a script
calls the scheduler resume function on the now-dead thread, which fails
with a coroutine-inactive error and, because the id is tracked again,
inserts the error into the result map, and a second get_thread_result
returns Some again. -/
def c5trace : List MapEvent :=
  [ MapEvent.track 0
  , MapEvent.setStatus 0 LuaThreadStatus.finished
  , MapEvent.insertRes 0 (ThreadResult.ok [LuaValue.num 1])
  , MapEvent.removeRes 0
  , MapEvent.track 0
  , MapEvent.insertRes 0 (ThreadResult.err "coroutine inactive")
  , MapEvent.removeRes 0 ]

/-- A small concrete scheduler state with thread id 0 tracked, used to
evaluate the operation theorems on concrete inputs. -/
def trackedState : SchedState :=
  { SchedState.initial with resultMap := { tracked := [0], inner := [] } }

/-- A small concrete scheduler state with one item in each queue, used to
evaluate the tick theorems on concrete inputs. -/
def tickState : SchedState :=
  { SchedState.initial with queueSpawn := [(1, [])], queueDefer := [(2, [])] }

/-- Invariant of the result-map trace system for one id: a stored result
implies the coroutine has at some point been observed outside the
resumable status, and so does a current status outside resumable. -/
def MapInv (s : MState) (id : Nat) : Prop :=
  ((mapGet s.rmap.inner id).isSome = true → id ∈ s.everNR)
  ∧ (s.statusOf id ≠ LuaThreadStatus.resumable → id ∈ s.everNR)

/-- A concrete valid trace prefix: id 0 is tracked, finishes, and its
result is stored. -/
def c5prefix : List MapEvent :=
  [ MapEvent.track 0
  , MapEvent.setStatus 0 LuaThreadStatus.finished
  , MapEvent.insertRes 0 (ThreadResult.ok []) ]

theorem mapGet_filter_ne {α : Type} (m : List (Nat × α)) (k q : Nat) (h : q ≠ k) :
    mapGet (m.filter (fun p => p.1 != k)) q = mapGet m q := by
  induction m with
  | nil => rfl
  | cons p rest ih =>
    obtain ⟨k2, v⟩ := p
    by_cases hk : k2 = k
    · subst hk
      have hq : ¬(k2 = q) := fun hh => h hh.symm
      simp [List.filter_cons, mapGet, hq, ih]
    · simp only [List.filter_cons]
      by_cases h2 : k2 = q
      · simp [h2, hk, h, mapGet]
      · simp [h2, hk, mapGet, ih]

theorem mapGet_set_self {α : Type} (m : List (Nat × α)) (k : Nat) (v : α) :
    mapGet (mapSet m k v) k = some v := by
  simp [mapSet, mapGet]

theorem mapGet_set_ne {α : Type} (m : List (Nat × α)) (k q : Nat) (v : α)
    (h : q ≠ k) : mapGet (mapSet m k v) q = mapGet m q := by
  have hq : ¬(k = q) := fun hh => h hh.symm
  simp [mapSet, mapGet, hq, mapGet_filter_ne m k q h]

theorem mapGet_remove_self {α : Type} (m : List (Nat × α)) (k : Nat) :
    mapGet (mapRemove m k) k = none := by
  induction m with
  | nil => rfl
  | cons p rest ih =>
    obtain ⟨k2, v⟩ := p
    by_cases hk : k2 = k
    · have hb : (k2 != k) = false := by simp [hk]
      simp only [mapRemove, List.filter_cons, hb, Bool.false_eq_true, if_false]
      exact ih
    · have hb : (k2 != k) = true := by simp [hk]
      simp only [mapRemove, List.filter_cons, hb, if_true]
      simp only [mapGet, hk, if_false]
      exact ih

theorem mapGet_remove_ne {α : Type} (m : List (Nat × α)) (k q : Nat)
    (h : q ≠ k) : mapGet (mapRemove m k) q = mapGet m q :=
  mapGet_filter_ne m k q h

theorem append_singleton_ne {α : Type} (l : List α) (x : α) : ¬(l = l ++ [x]) := by
  intro h
  have h2 := congrArg List.length h
  simp at h2

theorem ite_proj_queueSpawn (c : Prop) [Decidable c] (a b : SchedState) :
    (if c then a else b).queueSpawn = if c then a.queueSpawn else b.queueSpawn := by
  split <;> rfl

theorem ite_proj_queueDefer (c : Prop) [Decidable c] (a b : SchedState) :
    (if c then a else b).queueDefer = if c then a.queueDefer else b.queueDefer := by
  split <;> rfl

theorem ite_proj_resumeLog (c : Prop) [Decidable c] (a b : SchedState) :
    (if c then a else b).resumeLog = if c then a.resumeLog else b.resumeLog := by
  split <;> rfl

theorem ite_proj_callbackLog (c : Prop) [Decidable c] (a b : SchedState) :
    (if c then a else b).callbackLog = if c then a.callbackLog else b.callbackLog := by
  split <;> rfl

theorem ite_proj_resultMap (c : Prop) [Decidable c] (a b : SchedState) :
    (if c then a else b).resultMap = if c then a.resultMap else b.resultMap := by
  split <;> rfl

theorem is_tracked_track_self (m : ThreadResultMap) (id : Nat) :
    (m.track id).is_tracked id = true := by
  unfold ThreadResultMap.track ThreadResultMap.is_tracked
  split
  · next h => simp [h]
  · simp

theorem remove_inner_get_self (m : ThreadResultMap) (id : Nat) :
    mapGet ((m.remove id).2).inner id = none := by
  unfold ThreadResultMap.remove
  cases h : mapGet m.inner id with
  | none => simpa using h
  | some r => simpa using mapGet_remove_self m.inner id

/-- C10: ThreadResultMap::remove on an id with no stored result returns
None and leaves the map unchanged, so a tracked id with no stored result
stays tracked; the tracked status is cleared only on a call that removes
a stored result. -/
theorem result_map_remove_frame (m : ThreadResultMap) (id : Nat) :
    (mapGet m.inner id = none → m.remove id = (none, m))
    ∧ ((m.remove id).1 = none → (m.remove id).2 = m)
    ∧ (mapGet m.inner id = none → m.is_tracked id = true →
        (m.remove id).2.is_tracked id = true) := by
  unfold ThreadResultMap.remove
  cases h : mapGet m.inner id <;> simp [h]

/-- C10 witness: on a map tracking id 5 with no stored result, remove
returns None and leaves the map (and the tracked status of 5)
unchanged. -/
theorem result_map_remove_frame_witness :
    mapGet (ThreadResultMap.mk [5] []).inner 5 = none
    ∧ ThreadResultMap.remove (ThreadResultMap.mk [5] []) 5
        = (none, ThreadResultMap.mk [5] [])
    ∧ (ThreadResultMap.remove (ThreadResultMap.mk [5] []) 5).2.is_tracked 5 = true := by
  refine ⟨rfl, ?_, ?_⟩
  · exact (result_map_remove_frame (ThreadResultMap.mk [5] []) 5).1 rfl
  · exact (result_map_remove_frame (ThreadResultMap.mk [5] []) 5).2.2 rfl (by decide)

/-- C7: wait_for_thread resolves exactly in the states where
get_thread_result would return Some: the per-id await of the result map
is resolved iff a result for the id is currently stored, which is exactly
when the destructive retrieval would return it. -/
theorem wait_for_thread_resolves_iff (s : SchedState) (tid : Nat) :
    Runtime.wait_for_thread_resolved s tid
      = ((Runtime.get_thread_result s tid).1).isSome := by
  unfold Runtime.wait_for_thread_resolved Runtime.get_thread_result
    ThreadResultMap.listen_resolved ThreadResultMap.remove
  cases h : mapGet s.resultMap.inner tid <;> simp [h]

/-- C1 counterexample: pushing a thread through the host extension
operation LuaRuntimeExt::push_thread_front does not mark its id tracked
in the result map (the claim states that every submission through
push_thread_front marks the id tracked). -/
theorem lua_push_thread_front_untracked_cex :
    (Lua.push_thread_front SchedState.initial 7 []).1.resultMap.is_tracked 7 = false
    ∧ (Lua.push_thread_front SchedState.initial 7 []).1.queueSpawn = [(7, [])]
    ∧ (Lua.push_thread_front SchedState.initial 7 []).2 = 7 := by
  refine ⟨?_, rfl, rfl⟩
  decide

/-- C1 amended: Runtime::push_thread_front and Runtime::push_thread_back
enqueue on the Spawn queue respectively the Defer queue, return the
ThreadId, and mark it tracked; the extension-trait operations
LuaRuntimeExt::push_thread_front and push_thread_back enqueue on the same
queues and return the ThreadId but leave the result map unchanged
(tracking requires a separate track_thread call). -/
theorem push_thread_ops_amended (s : SchedState) (tid : Nat) (args : List LuaValue) :
    ((Runtime.push_thread_front s tid args).1.queueSpawn = s.queueSpawn ++ [(tid, args)]
      ∧ (Runtime.push_thread_front s tid args).1.resultMap.is_tracked tid = true
      ∧ (Runtime.push_thread_front s tid args).2 = tid)
    ∧ ((Runtime.push_thread_back s tid args).1.queueDefer = s.queueDefer ++ [(tid, args)]
      ∧ (Runtime.push_thread_back s tid args).1.resultMap.is_tracked tid = true
      ∧ (Runtime.push_thread_back s tid args).2 = tid)
    ∧ ((Lua.push_thread_front s tid args).1.queueSpawn = s.queueSpawn ++ [(tid, args)]
      ∧ (Lua.push_thread_front s tid args).1.resultMap = s.resultMap
      ∧ (Lua.push_thread_front s tid args).2 = tid)
    ∧ ((Lua.push_thread_back s tid args).1.queueDefer = s.queueDefer ++ [(tid, args)]
      ∧ (Lua.push_thread_back s tid args).1.resultMap = s.resultMap
      ∧ (Lua.push_thread_back s tid args).2 = tid) :=
  ⟨⟨rfl, is_tracked_track_self s.resultMap tid, rfl⟩,
    ⟨rfl, is_tracked_track_self s.resultMap tid, rfl⟩,
    ⟨rfl, rfl, rfl⟩, ⟨rfl, rfl, rfl⟩⟩

/-- C2: case analysis of the scheduler resume function.  On an errored
step the error is stored when the thread is tracked and
(false, error message) is returned; on a successful step whose first
value is the pending sentinel the thread and arguments are enqueued onto
the Defer queue and (true, nil) is returned; otherwise (true, values) is
returned unchanged, and the outcome is stored when the thread is no
longer resumable and tracked. -/
theorem functions_resume_spec (s : SchedState) (tid : Nat) (args : List LuaValue) :
    (∀ e statusAfter,
      (Functions.resume s tid args (StepOutcome.err e) statusAfter).2
          = (false, [LuaValue.str e])
      ∧ (s.resultMap.is_tracked tid = true →
          mapGet (Functions.resume s tid args (StepOutcome.err e)
              statusAfter).1.resultMap.inner tid
            = some (ThreadResult.err e))
      ∧ (Functions.resume s tid args (StepOutcome.err e) statusAfter).1.queueDefer
          = s.queueDefer)
    ∧ (∀ v statusAfter, (v.head?.map is_poll_pending).getD false = true →
        (Functions.resume s tid args (StepOutcome.ok v) statusAfter).2
            = (true, [LuaValue.nil])
        ∧ (Functions.resume s tid args (StepOutcome.ok v) statusAfter).1.queueDefer
            = s.queueDefer ++ [(tid, args)]
        ∧ (Functions.resume s tid args (StepOutcome.ok v) statusAfter).1.resultMap
            = s.resultMap)
    ∧ (∀ v statusAfter, (v.head?.map is_poll_pending).getD false = false →
        (Functions.resume s tid args (StepOutcome.ok v) statusAfter).2 = (true, v)
        ∧ (Functions.resume s tid args (StepOutcome.ok v) statusAfter).1.queueDefer
            = s.queueDefer
        ∧ (statusAfter ≠ LuaThreadStatus.resumable →
            s.resultMap.is_tracked tid = true →
            mapGet (Functions.resume s tid args (StepOutcome.ok v)
                statusAfter).1.resultMap.inner tid
              = some (ThreadResult.ok v))) := by
  refine ⟨?_, ?_, ?_⟩
  · intro e statusAfter
    refine ⟨rfl, ?_, ?_⟩
    · intro htr
      simp [Functions.resume, vmResume, htr, ThreadResultMap.insert, mapGet_set_self]
    · simp only [Functions.resume, vmResume]
      split <;> rfl
  · intro v statusAfter h
    simp [Functions.resume, vmResume, h, ThreadQueue.push_item]
  · intro v statusAfter h
    refine ⟨?_, ?_, ?_⟩
    · simp [Functions.resume, vmResume, h]
    · simp only [Functions.resume, vmResume, h]
      simp only [Bool.false_eq_true, if_false]
      split <;> rfl
    · intro hst htr
      simp [Functions.resume, vmResume, h, hst, htr, ThreadResultMap.insert,
        mapGet_set_self]

/-- C2 witness: the three cases evaluated on a concrete tracked state. -/
theorem functions_resume_spec_witness :
    ((Functions.resume trackedState 0 [] (StepOutcome.err "boom")
        LuaThreadStatus.errored).2 = (false, [LuaValue.str "boom"])
      ∧ mapGet (Functions.resume trackedState 0 [] (StepOutcome.err "boom")
          LuaThreadStatus.errored).1.resultMap.inner 0
          = some (ThreadResult.err "boom"))
    ∧ ((Functions.resume trackedState 0 [] (StepOutcome.ok [poll_pending])
        LuaThreadStatus.resumable).2 = (true, [LuaValue.nil])
      ∧ (Functions.resume trackedState 0 [] (StepOutcome.ok [poll_pending])
          LuaThreadStatus.resumable).1.queueDefer
          = trackedState.queueDefer ++ [(0, [])])
    ∧ ((Functions.resume trackedState 0 [] (StepOutcome.ok [LuaValue.num 3])
        LuaThreadStatus.finished).2 = (true, [LuaValue.num 3])
      ∧ mapGet (Functions.resume trackedState 0 [] (StepOutcome.ok [LuaValue.num 3])
          LuaThreadStatus.finished).1.resultMap.inner 0
          = some (ThreadResult.ok [LuaValue.num 3])) := by
  refine ⟨⟨?_, ?_⟩, ⟨?_, ?_⟩, ⟨?_, ?_⟩⟩
  · exact ((functions_resume_spec trackedState 0 []).1 "boom"
      LuaThreadStatus.errored).1
  · exact ((functions_resume_spec trackedState 0 []).1 "boom"
      LuaThreadStatus.errored).2.1 (by decide)
  · exact ((functions_resume_spec trackedState 0 []).2.1 [poll_pending]
      LuaThreadStatus.resumable (by decide)).1
  · exact ((functions_resume_spec trackedState 0 []).2.1 [poll_pending]
      LuaThreadStatus.resumable (by decide)).2.1
  · exact ((functions_resume_spec trackedState 0 []).2.2 [LuaValue.num 3]
      LuaThreadStatus.finished (by decide)).1
  · exact ((functions_resume_spec trackedState 0 []).2.2 [LuaValue.num 3]
      LuaThreadStatus.finished (by decide)).2.2 (by decide) (by decide)

/-- C3: the scheduler spawn function wraps a function argument into a
fresh coroutine; a thread that is not resumable is returned unchanged
without being resumed; a resumable thread is resumed exactly once with
the given arguments, and the thread and arguments are pushed onto the
Spawn queue exactly when the first value of that resume is the pending
sentinel; in every case the thread is returned. -/
theorem functions_spawn_spec (s : SchedState) (args : List LuaValue) (freshId : Nat) :
    (∀ fid, (LuaThreadOrFunction.fn fid).into_thread freshId = freshId)
    ∧ (∀ tof statusBefore step statusAfter,
        statusBefore ≠ LuaThreadStatus.resumable →
        Functions.spawn s tof args freshId statusBefore step statusAfter
          = (s, tof.into_thread freshId))
    ∧ (∀ tof step statusAfter,
        (Functions.spawn s tof args freshId LuaThreadStatus.resumable step
            statusAfter).1.resumeLog
            = s.resumeLog ++ [(tof.into_thread freshId, args)]
        ∧ ((Functions.spawn s tof args freshId LuaThreadStatus.resumable step
              statusAfter).1.queueSpawn
              = s.queueSpawn ++ [(tof.into_thread freshId, args)]
            ↔ stepIsPending step = true))
    ∧ (∀ tof statusBefore step statusAfter,
        (Functions.spawn s tof args freshId statusBefore step statusAfter).2
          = tof.into_thread freshId) := by
  refine ⟨fun _ => rfl, ?_, ?_, ?_⟩
  · intro tof statusBefore step statusAfter h
    simp [Functions.spawn, h]
  · intro tof step statusAfter
    constructor
    · cases step with
      | ok v =>
        by_cases h : (v.head?.map is_poll_pending).getD false = true
        · simp [Functions.spawn, vmResume, h]
        · simp [Functions.spawn, vmResume, h, ite_proj_resumeLog]
      | err e =>
        simp [Functions.spawn, vmResume, ThreadErrorCallback.call,
          ite_proj_resumeLog]
    · cases step with
      | ok v =>
        by_cases h : (v.head?.map is_poll_pending).getD false = true
        · simp [Functions.spawn, vmResume, h, ThreadQueue.push_item, stepIsPending]
        · have hne := append_singleton_ne s.queueSpawn (tof.into_thread freshId, args)
          simp [Functions.spawn, vmResume, h, stepIsPending,
            ite_proj_queueSpawn, hne]
      | err e =>
        have hne := append_singleton_ne s.queueSpawn (tof.into_thread freshId, args)
        simp [Functions.spawn, vmResume, ThreadErrorCallback.call, stepIsPending,
          ite_proj_queueSpawn, hne]
  · intro tof statusBefore step statusAfter
    by_cases h : statusBefore = LuaThreadStatus.resumable
    · subst h
      cases step with
      | ok v =>
        by_cases hp : (v.head?.map is_poll_pending).getD false = true
        · simp [Functions.spawn, vmResume, hp]
        · simp [Functions.spawn, vmResume, hp]
      | err e =>
        simp [Functions.spawn, vmResume, ThreadErrorCallback.call]
    · simp [Functions.spawn, h]

/-- C3 witness: a non-resumable thread is returned with the state
unchanged, and a resumable thread whose first resume returns the pending
sentinel is enqueued onto the Spawn queue. -/
theorem functions_spawn_spec_witness :
    Functions.spawn trackedState (LuaThreadOrFunction.thread 0) [] 9
        LuaThreadStatus.finished (StepOutcome.ok []) LuaThreadStatus.finished
      = (trackedState, 0)
    ∧ (Functions.spawn trackedState (LuaThreadOrFunction.thread 0) [] 9
        LuaThreadStatus.resumable (StepOutcome.ok [poll_pending])
        LuaThreadStatus.resumable).1.queueSpawn
      = trackedState.queueSpawn ++ [(0, [])] := by
  constructor
  · exact (functions_spawn_spec trackedState [] 9).2.1
      (LuaThreadOrFunction.thread 0) LuaThreadStatus.finished
      (StepOutcome.ok []) LuaThreadStatus.finished (by decide)
  · exact ((functions_spawn_spec trackedState [] 9).2.2.1
      (LuaThreadOrFunction.thread 0) (StepOutcome.ok [poll_pending])
      LuaThreadStatus.resumable).2.mpr (by decide)

theorem get?_append_l {α : Type} (l₁ l₂ : List α) (i : Nat) (h : i < l₁.length) :
    (l₁ ++ l₂).get? i = l₁.get? i := by
  induction l₁ generalizing i with
  | nil => exact absurd h (by simp)
  | cons a rest ih =>
    cases i with
    | zero => rfl
    | succ n =>
      simp only [List.cons_append, List.get?]
      exact ih n (by simpa using h)

theorem get?_append_r {α : Type} (l₁ l₂ : List α) (j : Nat) :
    (l₁ ++ l₂).get? (l₁.length + j) = l₂.get? j := by
  induction l₁ with
  | nil => simp
  | cons a rest ih =>
    have hlen : (a :: rest).length + j = (rest.length + j) + 1 := by
      simp [Nat.succ_add]
    rw [hlen]
    simpa using ih

/-- C4: once an exit code c has been set, the next iteration of the main
loop breaks before draining anything: run returns with the state exactly
as set_exit_code left it, so no Spawn or Defer queue item is consumed, no
VM resume step is started, no item is processed on that tick, and
get_exit_code returns Some c after run returns. -/
theorem runtime_run_exit_preemption (statusOf : StatusOracle) (stepOf : StepOracle)
    (localEmpty : SchedState → Bool) (fuel : Nat) (c : Nat) (s : SchedState) :
    Runtime.run statusOf stepOf localEmpty (fuel + 1) (Runtime.set_exit_code s c)
      = Runtime.set_exit_code s c
    ∧ Runtime.get_exit_code
        (Runtime.run statusOf stepOf localEmpty (fuel + 1)
          (Runtime.set_exit_code s c)) = some c
    ∧ (Runtime.run statusOf stepOf localEmpty (fuel + 1)
        (Runtime.set_exit_code s c)).queueSpawn = s.queueSpawn
    ∧ (Runtime.run statusOf stepOf localEmpty (fuel + 1)
        (Runtime.set_exit_code s c)).queueDefer = s.queueDefer
    ∧ (Runtime.run statusOf stepOf localEmpty (fuel + 1)
        (Runtime.set_exit_code s c)).resumeLog = s.resumeLog
    ∧ (tick statusOf stepOf localEmpty (Runtime.set_exit_code s c)).processed = [] := by
  have ht : tick statusOf stepOf localEmpty (Runtime.set_exit_code s c)
      = { kind := TickKind.exited, state := Runtime.set_exit_code s c,
          processed := [] } := by
    simp [tick, Runtime.set_exit_code]
  have hr : Runtime.run statusOf stepOf localEmpty (fuel + 1)
      (Runtime.set_exit_code s c) = Runtime.set_exit_code s c := by
    simp [Runtime.run, ht]
  refine ⟨hr, ?_, ?_, ?_, ?_, ?_⟩
  · rw [hr]; rfl
  · rw [hr]; rfl
  · rw [hr]; rfl
  · rw [hr]; rfl
  · rw [ht]

/-- C6: within one tick of the main loop (with no exit requested), the
processed items are exactly the Spawn-queue items followed by the
Defer-queue items: both queues are drained in FIFO order, and every Spawn
item enqueued before the tick is processed before any Defer item drained
on that tick. -/
theorem tick_processing_order (statusOf : StatusOracle) (stepOf : StepOracle)
    (localEmpty : SchedState → Bool) (s : SchedState) (h : s.exit = none) :
    (tick statusOf stepOf localEmpty s).processed = s.queueSpawn ++ s.queueDefer
    ∧ (∀ i, i < s.queueSpawn.length →
        (tick statusOf stepOf localEmpty s).processed.get? i = s.queueSpawn.get? i)
    ∧ (∀ j, (tick statusOf stepOf localEmpty s).processed.get?
          (s.queueSpawn.length + j) = s.queueDefer.get? j) := by
  have hp : (tick statusOf stepOf localEmpty s).processed
      = s.queueSpawn ++ s.queueDefer := by
    simp only [tick, h, Option.isSome_none, Bool.false_eq_true, if_false,
      ThreadQueue.drain_items]
    split <;> rfl
  refine ⟨hp, ?_, ?_⟩
  · intro i hi
    rw [hp]
    exact get?_append_l s.queueSpawn s.queueDefer i hi
  · intro j
    rw [hp]
    exact get?_append_r s.queueSpawn s.queueDefer j

/-- C6 witness: the processing order evaluated on a concrete state with
one Spawn item and one Defer item. -/
theorem tick_processing_order_witness :
    tickState.exit = none
    ∧ (tick (fun _ => LuaThreadStatus.finished)
        (fun _ _ => (none, LuaThreadStatus.finished)) (fun _ => true)
        tickState).processed = tickState.queueSpawn ++ tickState.queueDefer :=
  ⟨rfl, (tick_processing_order (fun _ => LuaThreadStatus.finished)
    (fun _ _ => (none, LuaThreadStatus.finished)) (fun _ => true)
    tickState rfl).1⟩

/-- C8: Handle::set always overwrites the result cell with the outcome of
the step, but notifies the event only when the assignment is final; the
resume method computes finality as the thread being no longer resumable,
so only that final assignment (which also sets the final flag) notifies;
and once the final flag is set, listen returns immediately without
awaiting the event. -/
theorem handle_spec (h : Handle) :
    (∀ step f, (h.set step f).result = some (stepStored step))
    ∧ (∀ step f, (h.set step f).notifyCount
        = if f then h.notifyCount + 1 else h.notifyCount)
    ∧ (∀ tid args step statusAfter, h.thread = some (tid, args) →
        ∃ h2 ret, h.resume_method step statusAfter = some (h2, ret)
          ∧ ret = step
          ∧ h2.result = some (stepStored step)
          ∧ (h2.notifyCount = h.notifyCount + 1
              ↔ statusAfter ≠ LuaThreadStatus.resumable)
          ∧ (h2.status = true ↔ statusAfter ≠ LuaThreadStatus.resumable))
    ∧ (h.status = true → h.listen_blocks = false) := by
  refine ⟨fun _ _ => rfl, fun _ _ => rfl, ?_, ?_⟩
  · intro tid args step statusAfter hth
    refine ⟨Handle.set { h with thread := none } step
      (decide (statusAfter ≠ LuaThreadStatus.resumable)), step, ?_, rfl, rfl, ?_, ?_⟩
    · simp [Handle.resume_method, hth]
    · by_cases hs : statusAfter = LuaThreadStatus.resumable
      · simp [Handle.set, hs]
      · simp [Handle.set, hs]
    · by_cases hs : statusAfter = LuaThreadStatus.resumable
      · simp [Handle.set, hs]
      · simp [Handle.set, hs]
  · intro hs
    simp [Handle.listen_blocks, hs]

/-- C8 witness: the handle resume method evaluated on a fresh handle with
a finishing step notifies exactly once and stores the outcome, and a
handle with the final flag set does not block in listen. -/
theorem handle_spec_witness :
    (∃ h2 ret,
      (Handle.new 0 []).resume_method (StepOutcome.ok []) LuaThreadStatus.finished
          = some (h2, ret)
        ∧ ret = StepOutcome.ok []
        ∧ h2.result = some (stepStored (StepOutcome.ok []))
        ∧ (h2.notifyCount = (Handle.new 0 []).notifyCount + 1
            ↔ LuaThreadStatus.finished ≠ LuaThreadStatus.resumable)
        ∧ (h2.status = true ↔ LuaThreadStatus.finished ≠ LuaThreadStatus.resumable))
    ∧ ((Handle.new 0 []).set (StepOutcome.ok []) true).listen_blocks = false := by
  constructor
  · exact (handle_spec (Handle.new 0 [])).2.2.1 0 [] (StepOutcome.ok [])
      LuaThreadStatus.finished rfl
  · exact (handle_spec ((Handle.new 0 []).set (StepOutcome.ok []) true)).2.2.2 rfl

/-- C9: with an error callback installed, an uncaught coroutine error
invokes the callback exactly once: the tick-loop processing of a
resumable thread whose step errors appends exactly one entry to the
callback log (and a successful or empty step appends none), the spawn
function on an immediately-erroring resume appends exactly one entry (and
none on success), and the resume function never invokes the callback
since it surfaces errors through its (false, message) return. -/
theorem error_callback_exactly_once (statusOf : StatusOracle) (stepOf : StepOracle)
    (s : SchedState) (hinst : s.callbackInstalled = true) :
    (∀ tid args e st2, statusOf tid = LuaThreadStatus.resumable →
        stepOf tid args = (some (StepOutcome.err e), st2) →
        (process_thread statusOf stepOf s (tid, args)).callbackLog
          = s.callbackLog ++ [e])
    ∧ (∀ tid args v st2, statusOf tid = LuaThreadStatus.resumable →
        stepOf tid args = (some (StepOutcome.ok v), st2) →
        (process_thread statusOf stepOf s (tid, args)).callbackLog = s.callbackLog)
    ∧ (∀ tid args st2, statusOf tid = LuaThreadStatus.resumable →
        stepOf tid args = (none, st2) →
        (process_thread statusOf stepOf s (tid, args)).callbackLog = s.callbackLog)
    ∧ (∀ tof args freshId e st2,
        (Functions.spawn s tof args freshId LuaThreadStatus.resumable
            (StepOutcome.err e) st2).1.callbackLog = s.callbackLog ++ [e])
    ∧ (∀ tof args freshId v st2,
        (Functions.spawn s tof args freshId LuaThreadStatus.resumable
            (StepOutcome.ok v) st2).1.callbackLog = s.callbackLog)
    ∧ (∀ tid args step st2,
        (Functions.resume s tid args step st2).1.callbackLog = s.callbackLog) := by
  refine ⟨?_, ?_, ?_, ?_, ?_, ?_⟩
  · intro tid args e st2 h1 h2
    simp [process_thread, h1, h2, vmResume, ThreadErrorCallback.call, hinst,
      ite_proj_callbackLog, ThreadResult.new]
  · intro tid args v st2 h1 h2
    simp [process_thread, h1, h2, vmResume, ThreadErrorCallback.call,
      ite_proj_callbackLog, ThreadResult.new]
  · intro tid args st2 h1 h2
    simp [process_thread, h1, h2, vmResume]
  · intro tof args freshId e st2
    simp [Functions.spawn, vmResume, ThreadErrorCallback.call, hinst,
      ite_proj_callbackLog]
  · intro tof args freshId v st2
    by_cases hp : (v.head?.map is_poll_pending).getD false = true
    · simp [Functions.spawn, vmResume, hp]
    · simp [Functions.spawn, vmResume, hp, ite_proj_callbackLog]
  · intro tid args step st2
    cases step with
    | ok v =>
      by_cases hp : (v.head?.map is_poll_pending).getD false = true
      · simp [Functions.resume, vmResume, hp]
      · simp [Functions.resume, vmResume, hp, ite_proj_callbackLog]
    | err e =>
      simp [Functions.resume, vmResume, ite_proj_callbackLog]

/-- C9 witness: the error paths evaluated on concrete inputs with the
callback installed: processing an erroring thread and spawning an
erroring thread each log exactly one invocation, and the resume function
logs none. -/
theorem error_callback_exactly_once_witness :
    SchedState.initial.callbackInstalled = true
    ∧ (process_thread (fun _ => LuaThreadStatus.resumable)
        (fun _ _ => (some (StepOutcome.err "boom"), LuaThreadStatus.errored))
        SchedState.initial (0, [])).callbackLog
        = SchedState.initial.callbackLog ++ ["boom"]
    ∧ (Functions.spawn SchedState.initial (LuaThreadOrFunction.thread 0) [] 9
        LuaThreadStatus.resumable (StepOutcome.err "boom")
        LuaThreadStatus.errored).1.callbackLog
        = SchedState.initial.callbackLog ++ ["boom"]
    ∧ (Functions.resume SchedState.initial 0 [] (StepOutcome.err "boom")
        LuaThreadStatus.errored).1.callbackLog = SchedState.initial.callbackLog := by
  refine ⟨rfl, ?_, ?_, ?_⟩
  · exact (error_callback_exactly_once (fun _ => LuaThreadStatus.resumable)
      (fun _ _ => (some (StepOutcome.err "boom"), LuaThreadStatus.errored))
      SchedState.initial rfl).1 0 [] "boom" LuaThreadStatus.errored rfl rfl
  · exact (error_callback_exactly_once (fun _ => LuaThreadStatus.resumable)
      (fun _ _ => (some (StepOutcome.err "boom"), LuaThreadStatus.errored))
      SchedState.initial rfl).2.2.2.1 (LuaThreadOrFunction.thread 0) [] 9 "boom"
      LuaThreadStatus.errored
  · exact (error_callback_exactly_once (fun _ => LuaThreadStatus.resumable)
      (fun _ _ => (some (StepOutcome.err "boom"), LuaThreadStatus.errored))
      SchedState.initial rfl).2.2.2.2.2 0 [] (StepOutcome.err "boom")
      LuaThreadStatus.errored

theorem track_inner (m : ThreadResultMap) (i : Nat) : (m.track i).inner = m.inner := by
  unfold ThreadResultMap.track
  split <;> rfl

theorem noinsert_step_none (s : MState) (e : MapEvent) (id : Nat)
    (h : mapGet s.rmap.inner id = none)
    (he : ∀ r, e ≠ MapEvent.insertRes id r) :
    mapGet (evStep s e).rmap.inner id = none := by
  cases e with
  | track i =>
    show mapGet (s.rmap.track i).inner id = none
    rw [track_inner]
    exact h
  | setStatus i st => exact h
  | insertRes i r =>
    have hne : id ≠ i := by
      intro hh
      exact he r (by rw [hh])
    show mapGet (mapSet s.rmap.inner i r) id = none
    rw [mapGet_set_ne s.rmap.inner i id r hne]
    exact h
  | removeRes i =>
    show mapGet ((s.rmap.remove i).2).inner id = none
    unfold ThreadResultMap.remove
    cases hg : mapGet s.rmap.inner i with
    | none => exact h
    | some rr =>
      by_cases hi : id = i
      · subst hi
        simpa using mapGet_remove_self s.rmap.inner id
      · simpa using (mapGet_remove_ne s.rmap.inner i id hi).trans h

theorem noinsert_replay_none (q : List MapEvent) (s : MState) (id : Nat)
    (h : mapGet s.rmap.inner id = none)
    (hq : ∀ r, MapEvent.insertRes id r ∉ q) :
    mapGet (replay s q).rmap.inner id = none := by
  induction q generalizing s with
  | nil => exact h
  | cons e rest ih =>
    have he : ∀ r, e ≠ MapEvent.insertRes id r := by
      intro r hh
      exact hq r (by rw [hh]; exact List.mem_cons_self _ _)
    have hrest : ∀ r, MapEvent.insertRes id r ∉ rest := by
      intro r hh
      exact hq r (List.mem_cons_of_mem e hh)
    exact ih (evStep s e) (noinsert_step_none s e id h he) hrest

theorem remove_inner_get_other (m : ThreadResultMap) (i id : Nat)
    (h : (mapGet ((m.remove i).2).inner id).isSome = true) :
    (mapGet m.inner id).isSome = true := by
  by_cases hi : id = i
  · subst hi
    rw [remove_inner_get_self m id] at h
    simp at h
  · unfold ThreadResultMap.remove at h
    cases hg : mapGet m.inner i with
    | none =>
      rw [hg] at h
      exact h
    | some rr =>
      rw [hg] at h
      have h2 : (mapGet (mapRemove m.inner i) id).isSome = true := h
      rwa [mapGet_remove_ne m.inner i id hi] at h2

theorem everNR_mono (s : MState) (e : MapEvent) (id : Nat)
    (h : id ∈ s.everNR) : id ∈ (evStep s e).everNR := by
  cases e with
  | track i => exact h
  | setStatus i st =>
    show id ∈ (if st = LuaThreadStatus.resumable then s.everNR
      else if i ∈ s.everNR then s.everNR else i :: s.everNR)
    split
    · exact h
    · split
      · exact h
      · exact List.mem_cons_of_mem i h
  | insertRes i r => exact h
  | removeRes i => exact h

theorem mapInv_step (s : MState) (e : MapEvent) (id : Nat)
    (hv : evValid s e = true) (h : MapInv s id) : MapInv (evStep s e) id := by
  cases e with
  | track i =>
    constructor
    · intro hh
      apply h.1
      rwa [show (evStep s (MapEvent.track i)).rmap.inner = s.rmap.inner from
        track_inner s.rmap i] at hh
    · exact h.2
  | setStatus i st =>
    constructor
    · intro hh
      exact everNR_mono s (MapEvent.setStatus i st) id (h.1 hh)
    · intro hst
      by_cases hi : i = id
      · subst hi
        have hs2 : (evStep s (MapEvent.setStatus i st)).statusOf i = st := by
          show (mapGet (mapSet s.statuses i st) i).getD _ = st
          rw [mapGet_set_self]
          rfl
        rw [hs2] at hst
        show i ∈ (if st = LuaThreadStatus.resumable then s.everNR
          else if i ∈ s.everNR then s.everNR else i :: s.everNR)
        rw [if_neg hst]
        split
        · assumption
        · exact List.mem_cons_self i _
      · have hs2 : (evStep s (MapEvent.setStatus i st)).statusOf id = s.statusOf id := by
          show (mapGet (mapSet s.statuses i st) id).getD _ = _
          rw [mapGet_set_ne s.statuses i id st (fun hh => hi hh.symm)]
          rfl
        rw [hs2] at hst
        exact everNR_mono s (MapEvent.setStatus i st) id (h.2 hst)
  | insertRes i r =>
    have hv2 : s.statusOf i ≠ LuaThreadStatus.resumable := by
      simp only [evValid, Bool.and_eq_true, decide_eq_true_eq] at hv
      exact hv.2
    constructor
    · intro hh
      by_cases hi : i = id
      · subst hi
        exact h.2 hv2
      · apply h.1
        rwa [show (evStep s (MapEvent.insertRes i r)).rmap.inner
            = mapSet s.rmap.inner i r from rfl,
          mapGet_set_ne s.rmap.inner i id r (fun hh2 => hi hh2.symm)] at hh
    · exact h.2
  | removeRes i =>
    constructor
    · intro hh
      exact h.1 (remove_inner_get_other s.rmap i id hh)
    · exact h.2

theorem mapInv_replay (p : List MapEvent) (s : MState) (id : Nat)
    (hv : traceValid s p = true) (h : MapInv s id) : MapInv (replay s p) id := by
  induction p generalizing s with
  | nil => exact h
  | cons e rest ih =>
    simp only [traceValid, Bool.and_eq_true] at hv
    exact ih (evStep s e) hv.2 (mapInv_step s e id hv.1 h)

theorem mapInv_init (id : Nat) : MapInv MState.init id := by
  constructor
  · intro hh
    simp [MState.init, mapGet] at hh
  · intro hh
    exact absurd rfl hh

/-- C5 counterexample: a trace of source operations under which a tracked
ThreadId receives Some from get_thread_result twice.  The id is tracked
and completes, its result is retrieved (first Some, clearing tracking),
the host tracks the id again with track_thread, a script resume of the
now-dead thread errors and stores the error since the id is tracked, and
a second get_thread_result returns Some again. -/
theorem get_thread_result_twice_cex :
    traceValid MState.init c5trace = true
    ∧ MapEvent.track 0 ∈ c5trace
    ∧ removeSomeCount MState.init c5trace 0 = 2 := by
  refine ⟨by decide, by decide, by decide⟩

/-- C5 amended: get_thread_result returns Some at most once per stored
result: after any retrieval, every later call returns None until a new
result is inserted for that id (which requires the id to be tracked
again); and a call never returns Some before the coroutine identified by
the id has been observed outside the Resumable state. -/
theorem get_thread_result_amended (p q : List MapEvent) (id : Nat) :
    ((∀ r, MapEvent.insertRes id r ∉ q) →
      ((replay (evStep (replay MState.init p) (MapEvent.removeRes id)) q).rmap.remove
          id).1 = none)
    ∧ (traceValid MState.init p = true →
        ∀ r, ((replay MState.init p).rmap.remove id).1 = some r →
          id ∈ (replay MState.init p).everNR) := by
  constructor
  · intro hq
    have h0 : mapGet (evStep (replay MState.init p)
        (MapEvent.removeRes id)).rmap.inner id = none :=
      remove_inner_get_self (replay MState.init p).rmap id
    have h1 := noinsert_replay_none q _ id h0 hq
    unfold ThreadResultMap.remove
    rw [h1]
  · intro hv r hr
    have hinv := mapInv_replay p MState.init id hv (mapInv_init id)
    have hsome : (mapGet (replay MState.init p).rmap.inner id).isSome = true := by
      revert hr
      unfold ThreadResultMap.remove
      cases hg : mapGet (replay MState.init p).rmap.inner id with
      | none => intro hr; simp at hr
      | some rr => intro _; rfl
    exact hinv.1 hsome

/-- C5 amended witness: on the concrete prefix where id 0 completes and
its result is stored, a retrieval followed by any further retrieval (with
no intervening insertion) returns None, and the retrieval that returned
Some happened only after id 0 was observed outside the resumable
status. -/
theorem get_thread_result_amended_witness :
    ((replay (evStep (replay MState.init c5prefix) (MapEvent.removeRes 0))
        []).rmap.remove 0).1 = none
    ∧ (traceValid MState.init c5prefix = true
      ∧ ((replay MState.init c5prefix).rmap.remove 0).1 = some (ThreadResult.ok [])
      ∧ 0 ∈ (replay MState.init c5prefix).everNR) := by
  constructor
  · exact (get_thread_result_amended c5prefix [] 0).1 (by simp)
  · refine ⟨by decide, by decide, ?_⟩
    exact (get_thread_result_amended c5prefix [] 0).2 (by decide)
      (ThreadResult.ok []) (by decide)

end Scheduler
